import Mathlib

/-!
Shallow embedding of the `SelfRefer` pinned self-referential container from
`src/lib.rs`.

Memory is modelled as a total map from word addresses (`Nat`) to `usize`
values (`Nat`).  A `SelfRefer` instance consists of its two fields, the
nullable raw pointer `ptr : *const usize` (modelled as `Option Nat`) and the
payload `v : usize`.  A *placed* instance additionally records the current
address of its `v` field and the whole word memory, so that reading through
the raw pointer (`referred`) and relocation (`std::mem::replace` in the
test) can be expressed faithfully: the pointer is dereferenced against the
memory, not against the field, so a stale pointer really would read stale or
foreign data.
-/

/-- The `SelfRefer` struct of `src/lib.rs`.  `ptr` is the nullable raw
pointer (`*const usize`), `v` the owned payload.  The `PhantomPinned` marker
is zero-sized and has no runtime content, so it is omitted. -/
structure SelfRefer where
  ptr : Option Nat
  v : Nat
  deriving DecidableEq, Repr

/-- Write the word `v` at address `a` of memory `m`. -/
def writeMem (m : Nat → Nat) (a v : Nat) : Nat → Nat :=
  fun x => if x = a then v else m x

/-- The constructor `SelfRefer::new`: a fresh instance with the given value
and a null pointer (`ptr: null()`). -/
def SelfRefer.new (v : Nat) : SelfRefer :=
  { ptr := none, v := v }

/-- A `SelfRefer` instance placed in memory: `mem` is the word memory,
`addr` the current address of the instance's `v` field, `sr` the fields of
the instance itself. -/
structure Placed where
  mem : Nat → Nat
  addr : Nat
  sr : SelfRefer

/-- Place an instance at address `a` in memory `m`: the storage at `a` now
holds the bits of the `v` field. -/
def place (m : Nat → Nat) (a : Nat) (sr : SelfRefer) : Placed :=
  { mem := writeMem m a sr.v, addr := a, sr := sr }

/-- Memory coherence of a placed instance: the storage at `addr` agrees
with the `v` field.  `place` establishes this and every operation below
preserves it. -/
def Placed.wf (p : Placed) : Prop :=
  p.mem p.addr = p.sr.v

/-- The method `SelfRefer::refer_self` (`this.ptr = &this.v as _`): store
the current address of the `v` field into `ptr`. -/
def Placed.refer_self (p : Placed) : Placed :=
  { p with sr := { p.sr with ptr := some p.addr } }

/-- The method `SelfRefer::referred`
(`unsafe { self.ptr.as_ref() }.copied()`): `none` for the null pointer,
otherwise the word read from memory at the stored address. -/
def Placed.referred (p : Placed) : Option Nat :=
  p.sr.ptr.map p.mem

/-- The method `SelfRefer::set` (`self.v = v`): overwrite the `v` field in
place, i.e. both the field and its storage word. -/
def Placed.set (p : Placed) (v : Nat) : Placed :=
  { p with mem := writeMem p.mem p.addr v, sr := { p.sr with v := v } }

/-- The method `SelfRefer::pinned_set`: the same in-place write of the `v`
field, performed through the pinned handle (`get_unchecked_mut`). -/
def Placed.pinned_set (p : Placed) (v : Nat) : Placed :=
  { p with mem := writeMem p.mem p.addr v, sr := { p.sr with v := v } }

/-- Relocation, as performed by `std::mem::replace(&mut sr, ...)` in the
test: the instance's bits move unchanged to address `a`, and the old
storage word is overwritten with `ow` (the `v` field of the replacement). -/
def Placed.moveTo (p : Placed) (a ow : Nat) : Placed :=
  { mem := writeMem (writeMem p.mem p.addr ow) a p.sr.v, addr := a, sr := p.sr }

/-- One operation of the API (plus relocation), for stating reachability
invariants over operation sequences. -/
inductive Op where
  | setOp (v : Nat)
  | pinnedSetOp (v : Nat)
  | referSelfOp
  | moveOp (a ow : Nat)
  deriving DecidableEq, Repr

/-- Apply one operation to a placed instance. -/
def step (p : Placed) (o : Op) : Placed :=
  match o with
  | .setOp v => p.set v
  | .pinnedSetOp v => p.pinned_set v
  | .referSelfOp => p.refer_self
  | .moveOp a ow => p.moveTo a ow

/-- Whether an operation relocates the instance. -/
def Op.isMove : Op → Bool
  | .moveOp _ _ => true
  | _ => false

/-- A sample placed instance used to instantiate theorems with hypotheses:
a fresh instance with value `7` placed at address `3` in zeroed memory. -/
def sampleP : Placed :=
  place (fun _ => 0) 3 (SelfRefer.new 7)

/-- The literal scenario's starting state: value `42` placed at address
`0` in zeroed memory. -/
def s0 : Placed :=
  place (fun _ => 0) 0 (SelfRefer.new 42)

/-- The literal scenario after relocation: the instance moved to address
`1`, the old storage overwritten with `420`. -/
def s1 : Placed :=
  s0.moveTo 1 420

/-- Helper: a fold over operations that never calls `refer_self` leaves a
null pointer null. -/
theorem ptr_foldl_none (ops : List Op) (p : Placed)
    (hno : Op.referSelfOp ∉ ops) (h : p.sr.ptr = none) :
    (ops.foldl step p).sr.ptr = none := by
  induction ops generalizing p with
  | nil => exact h
  | cons o ops ih =>
    have hno' : Op.referSelfOp ∉ ops := fun hm => hno (List.mem_cons_of_mem _ hm)
    have ho : o ≠ Op.referSelfOp := fun he => hno (he ▸ List.mem_cons_self _ _)
    cases o with
    | setOp v => exact ih (p.set v) hno' h
    | pinnedSetOp v => exact ih (p.pinned_set v) hno' h
    | referSelfOp => exact absurd rfl ho
    | moveOp a ow => exact ih (p.moveTo a ow) hno' h

/-- Helper: a fold over relocation-free operations preserves coherence and
the pointer pointing at the instance's own address. -/
theorem inv_foldl (ops : List Op) (p : Placed)
    (hmv : ops.all (fun o => ! o.isMove) = true)
    (h1 : p.wf) (h2 : p.sr.ptr = some p.addr) :
    (ops.foldl step p).wf ∧
      (ops.foldl step p).sr.ptr = some (ops.foldl step p).addr := by
  induction ops generalizing p with
  | nil => exact ⟨h1, h2⟩
  | cons o ops ih =>
    rw [List.all_cons, Bool.and_eq_true] at hmv
    cases o with
    | setOp v =>
      exact ih (p.set v) hmv.2 (by simp [Placed.wf, Placed.set, writeMem]) (by simp [Placed.set, h2])
    | pinnedSetOp v =>
      exact ih (p.pinned_set v) hmv.2 (by simp [Placed.wf, Placed.pinned_set, writeMem])
        (by simp [Placed.pinned_set, h2])
    | referSelfOp =>
      exact ih (p.refer_self) hmv.2 h1 rfl
    | moveOp a ow =>
      exact absurd hmv.1 (by simp [Op.isMove])

/-- C1: for every pinned, memory-coherent instance whose value field holds
`v`, calling `refer_self` and then `referred` returns `some v` (property
P3, post-pin correctness). -/
theorem refer_self_then_referred (p : Placed) (v : Nat)
    (hwf : p.wf) (hv : p.sr.v = v) :
    (p.refer_self).referred = some v := by
  have h : (p.refer_self).referred = some (p.mem p.addr) := rfl
  rw [Placed.wf] at hwf
  rw [h, hwf, hv]

/-- Witness for C1 at the concrete instance `sampleP`. -/
theorem refer_self_then_referred_witness :
    sampleP.wf ∧ sampleP.sr.v = 7 ∧ (sampleP.refer_self).referred = some 7 :=
  ⟨rfl, rfl, refer_self_then_referred sampleP 7 rfl rfl⟩

/-- C2: starting from `new initial_value`, after any number of `set` calls
with any arguments and no call to `refer_self`, `referred` still returns
`none` (property P1, no premature reference). -/
theorem referred_none_after_sets (m : Nat → Nat) (a v0 : Nat) (vs : List Nat) :
    (vs.foldl Placed.set (place m a (SelfRefer.new v0))).referred = none := by
  have h : ∀ (q : Placed), q.sr.ptr = none →
      (vs.foldl Placed.set q).referred = none := by
    induction vs with
    | nil => intro q hq; simp [Placed.referred, hq]
    | cons v vs ih =>
      intro q hq
      exact ih (q.set v) (by simp [Placed.set, hq])
  exact h _ rfl

/-- C3: after `refer_self` on an instance whose value field holds `v1`,
calling `pinned_set v2` and then `referred` returns `some v2`; in
particular it never returns the stale `some v1` when `v1 ≠ v2` (property
P4, mutation-after-pin consistency). -/
theorem pinned_set_then_referred (p : Placed) (v1 v2 : Nat) (hv : p.sr.v = v1) :
    ((p.refer_self).pinned_set v2).referred = some v2 ∧
      (v1 ≠ v2 → ((p.refer_self).pinned_set v2).referred ≠ some v1) := by
  have h : ((p.refer_self).pinned_set v2).referred = some v2 := by
    simp [Placed.referred, Placed.pinned_set, Placed.refer_self, writeMem]
  refine ⟨h, fun hne heq => hne ?_⟩
  rw [h] at heq
  exact (Option.some_injective _ heq).symm

/-- Witness for C3 at the concrete instance `sampleP` (values 7 and 9). -/
theorem pinned_set_then_referred_witness :
    sampleP.sr.v = 7 ∧
      ((sampleP.refer_self).pinned_set 9).referred = some 9 ∧
      ((sampleP.refer_self).pinned_set 9).referred ≠ some 7 :=
  ⟨rfl, (pinned_set_then_referred sampleP 7 9 rfl).1,
    (pinned_set_then_referred sampleP 7 9 rfl).2 (by decide)⟩

/-- C4: `refer_self` is idempotent in effect (property P5): two successive
calls on the same pinned instance produce exactly the state one call
produces, so `referred` yields the same result in both cases. -/
theorem refer_self_idem (p : Placed) :
    (p.refer_self).refer_self = p.refer_self ∧
      ((p.refer_self).refer_self).referred = (p.refer_self).referred :=
  ⟨rfl, rfl⟩

/-- C5: `new initial_value` yields an instance whose value field equals
`initial_value` and whose self pointer is null; as a total function the
construction never fails. -/
theorem new_spec (v : Nat) :
    (SelfRefer.new v).v = v ∧ (SelfRefer.new v).ptr = none :=
  ⟨rfl, rfl⟩

/-- C6: `referred` returns `none` exactly when the self pointer is null;
with a non-null pointer it returns `some` of the word read through the
stored address, and these are the only outcomes. -/
theorem referred_spec (p : Placed) :
    ((p.referred) = none ↔ p.sr.ptr = none) ∧
      (∀ a, p.sr.ptr = some a → p.referred = some (p.mem a)) := by
  constructor
  · cases h : p.sr.ptr <;> simp [Placed.referred, h]
  · intro a ha
    simp [Placed.referred, ha]

/-- Witness for C6 at the concrete pinned instance `sampleP.refer_self`,
whose pointer holds address `3`. -/
theorem referred_spec_witness :
    (sampleP.refer_self).sr.ptr = some 3 ∧
      (sampleP.refer_self).referred = some ((sampleP.refer_self).mem 3) :=
  ⟨rfl, (referred_spec sampleP.refer_self).2 3 rfl⟩

/-- C7: `set` and `pinned_set` overwrite only the value field, in place:
the pointer field and the address are untouched (no relocation), and the
memory is exactly the old memory with the instance's own word rewritten. -/
theorem set_frame (p : Placed) (v : Nat) :
    (p.set v).sr.ptr = p.sr.ptr ∧ (p.set v).addr = p.addr ∧
      (p.set v).sr.v = v ∧ (p.set v).mem = writeMem p.mem p.addr v ∧
      (p.pinned_set v).sr.ptr = p.sr.ptr ∧ (p.pinned_set v).addr = p.addr ∧
      (p.pinned_set v).sr.v = v ∧ (p.pinned_set v).mem = writeMem p.mem p.addr v :=
  ⟨rfl, rfl, rfl, rfl, rfl, rfl, rfl, rfl⟩

/-- C8: invariant I1 — starting from a fresh placement of `new v0`, any
sequence of operations that never calls `refer_self` (plain sets, pinned
sets, even relocations) leaves the self pointer null. -/
theorem ptr_null_while_unlocked (m : Nat → Nat) (a v0 : Nat) (ops : List Op)
    (hno : Op.referSelfOp ∉ ops) :
    (ops.foldl step (place m a (SelfRefer.new v0))).sr.ptr = none :=
  ptr_foldl_none ops _ hno rfl

/-- Witness for C8: a concrete `refer_self`-free run of a set, a
relocation and a pinned set. -/
theorem ptr_null_while_unlocked_witness :
    Op.referSelfOp ∉ [Op.setOp 5, Op.moveOp 9 1, Op.pinnedSetOp 6] ∧
      (([Op.setOp 5, Op.moveOp 9 1, Op.pinnedSetOp 6]).foldl step
          (place (fun _ => 0) 3 (SelfRefer.new 7))).sr.ptr = none :=
  ⟨by decide,
    ptr_null_while_unlocked (fun _ => 0) 3 7
      [Op.setOp 5, Op.moveOp 9 1, Op.pinnedSetOp 6] (by decide)⟩

/-- C9: relocation before pinning is safe (property P2): in general,
placing `new v`, relocating it anywhere with any overwrite of the old slot,
then establishing the reference and reading yields `some v`; and the
literal end-to-end scenario holds — create `42`, relocate with the old
storage overwritten to `420` (and reading `420` back from the old slot),
read `none`, establish, read `some 42`, `pinned_set 100`, read
`some 100`. -/
theorem relocation_before_pin :
    (∀ (m : Nat → Nat) (a0 a1 v ow : Nat),
        (((place m a0 (SelfRefer.new v)).moveTo a1 ow).refer_self).referred =
          some v) ∧
      s1.mem 0 = 420 ∧
      s1.referred = none ∧
      (s1.refer_self).referred = some 42 ∧
      ((s1.refer_self).pinned_set 100).referred = some 100 := by
  refine ⟨fun m a0 a1 v ow => ?_, rfl, rfl, rfl, rfl⟩
  simp [Placed.referred, Placed.refer_self, Placed.moveTo, place, writeMem,
    SelfRefer.new]

/-- C10: once `refer_self` has been called on a coherent pinned instance,
no relocation-free sequence of `set`, `pinned_set` and `refer_self` calls
ever makes `referred` return `none` again: the pointer stays non-null and
`referred` returns `some` of the current value field. -/
theorem referred_stays_some (p : Placed) (ops : List Op)
    (hwf : p.wf) (hmv : ops.all (fun o => ! o.isMove) = true) :
    (ops.foldl step p.refer_self).sr.ptr ≠ none ∧
      (ops.foldl step p.refer_self).referred =
        some ((ops.foldl step p.refer_self).sr.v) := by
  have h := inv_foldl ops p.refer_self hmv hwf rfl
  refine ⟨by rw [h.2]; exact fun hc => Option.noConfusion hc, ?_⟩
  have hw := h.1
  rw [Placed.wf] at hw
  simp [Placed.referred, h.2, hw]

/-- Witness for C10: a concrete relocation-free run of a set, a repeated
`refer_self` and a pinned set after establishment on `sampleP`. -/
theorem referred_stays_some_witness :
    sampleP.wf ∧
      ([Op.setOp 5, Op.referSelfOp, Op.pinnedSetOp 9].all
          (fun o => ! o.isMove) = true) ∧
      ([Op.setOp 5, Op.referSelfOp, Op.pinnedSetOp 9].foldl step
          sampleP.refer_self).sr.ptr ≠ none ∧
      ([Op.setOp 5, Op.referSelfOp, Op.pinnedSetOp 9].foldl step
          sampleP.refer_self).referred =
        some (([Op.setOp 5, Op.referSelfOp, Op.pinnedSetOp 9].foldl step
          sampleP.refer_self).sr.v) :=
  ⟨rfl, rfl,
    (referred_stays_some sampleP [Op.setOp 5, Op.referSelfOp, Op.pinnedSetOp 9]
      rfl rfl).1,
    (referred_stays_some sampleP [Op.setOp 5, Op.referSelfOp, Op.pinnedSetOp 9]
      rfl rfl).2⟩
